import Mathlib

/-
  A shallow embedding of the listing-deduplication / notification engine of
  `src/bot.py` (the `CianBot` class and its filter functions), together with a
  model of its JSON persistence format, and theorems about the embedded
  operations.

  Modelling conventions:
  * Python dicts are insertion-ordered association lists; Python sets of ints
    are duplicate-free lists (only membership is ever claimed about them).
  * Machine-level I/O (logging, the network, the file system, telegram) is
    replaced by oracles passed as parameters; a call that Python ends with an
    uncaught exception is modelled by an explicit `PyErr` component.
  * `cian_parser.FlatListItem` is not under `src/`; its field set is modelled
    from the spec (section 3) plus the attributes `bot.py` reads.
-/

namespace Cian

/-- Python exception classes that the modelled code paths can raise. -/
inductive PyErr where
  | attributeError
  | typeError
  | zeroDivisionError
  | fetchError
  | transportError
  | saveError
deriving DecidableEq, Repr

/-- Modelled from the spec: `cian_parser.FlatListItem` is not under `src/`.
Spec section 3 says a listing has a stable integer/string `id`, numeric
attributes used by filters, tags (metro stops) and media; the remaining
fields are exactly the attributes `bot.py` reads (`price`, `rooms`, `metros`,
`pdf_link`, `deposit`, `fee`, `bonus`, `bedrooms`, `photos`). Numeric
attributes are modelled as rationals (Python ints/floats). -/
structure FlatListItem where
  id : Nat
  price : ℚ
  rooms : ℚ
  metros : List String
  pdf_link : String
  deposit : ℚ
  fee : ℚ
  bonus : ℚ
  bedrooms : Nat
  photos : List String
deriving DecidableEq, Repr

/-- A scheduled message: the dict built in `flat_to_message` /
`handle_new_flat` with keys `text`, optional `photo`, `chat_id`. -/
structure Msg where
  text : String
  photo : Option String
  chat_id : Nat
deriving DecidableEq, Repr

/-- A JSON value as written by `json.dump` / read by `json.load`
(`state.json`). Object keys are strings, as in JSON. -/
inductive JValue where
  | jnum (q : ℚ)
  | jstr (s : String)
  | jlist (xs : List JValue)
  | jobj (fields : List (String × JValue))

/-- A hashable JSON scalar (what Python `set(...)` accepts as elements when
`from_directory` rebuilds the `viewed` sets). -/
inductive JScalar where
  | num (q : ℚ)
  | str (s : String)
deriving DecidableEq, Repr

def JScalar.toJValue : JScalar → JValue
  | .num q => .jnum q
  | .str s => .jstr s

/-- A Python int serialized as a JSON number. -/
def jnumOfNat (n : Nat) : JValue := .jnum (n : ℚ)

/-- A Python int as a hashable set element. -/
def scalarOfNat (n : Nat) : JScalar := .num (n : ℚ)

/-- The in-memory state of a live `CianBot` object (`CianBot.__init__`):
`flatlist` and `viewed` are insertion-ordered dicts, `scheduled_messages` is
a FIFO deque, `observed_urls` a list.  `flat_details` is only ever populated
by `from_directory` from JSON, so its entries are string-keyed JSON values.
`enqueue_log` is specification-level ghost state with no counterpart in the
source: it records, in order, every `(chat_id, flat_id)` pair for which a
message is appended to `scheduled_messages`; no operation ever reads it. -/
structure CianState where
  flatlist : List (Nat × FlatListItem)
  flat_details : List (String × JValue)
  viewed : List (Nat × List Nat)
  scheduled_messages : List Msg
  observed_urls : List String
  enqueue_log : List (Nat × Nat)

/-- Embedding of `CianBot.__init__`: everything empty. -/
def initState : CianState :=
  { flatlist := [], flat_details := [], viewed := [], scheduled_messages := [],
    observed_urls := [], enqueue_log := [] }

/-- The key set of the listing store (`flat.id in self.flatlist`). -/
def flatKeys (s : CianState) : List Nat := s.flatlist.map Prod.fst

/-- Python `str.lower` restricted to the alphabets appearing in the metro
lists: ASCII letters and Cyrillic (including Ё). -/
def lowerChar (c : Char) : Char :=
  if 65 ≤ c.toNat ∧ c.toNat ≤ 90 then Char.ofNat (c.toNat + 32)
  else if 0x410 ≤ c.toNat ∧ c.toNat ≤ 0x42F then Char.ofNat (c.toNat + 32)
  else if c.toNat = 0x401 then Char.ofNat 0x451
  else c

def pyLower (s : String) : String := String.mk (s.data.map lowerChar)

/-- The metro allow-list of `bot.py` (already lowercased, as in the source). -/
def METRO : List String :=
  (["Достоевская", "Проспект Мира", "Сухаревская", "Цветной бульвар",
    "Трубная", "Чеховская", "Пушкинская", "Кузнецкий мост", "Лубянка",
    "Чистые пруды", "Красные Ворота", "Тургеневская", "Сретенский бульвар",
    "Китай-город", "Чкаловская", "Маяковская", "Белорусская", "Менделеевская",
    "Новослободская"]).map pyLower

/-- The metro block-list of `bot.py` (lowercased). -/
def METRO_BLACKLIST : List String :=
  (["Электрозаводская", "Бауманская", "Солнцево"]).map pyLower

/-- Embedding of `filter_price_per_person`: `ppp = flat.price / flat.rooms; return ppp <= 35000`.
Python raises `ZeroDivisionError` when `flat.rooms == 0`; the diagnostic
`logger.debug` call on failure is not modelled (it does not affect the
result). -/
def filter_price_per_person (flat : FlatListItem) : Except PyErr Bool :=
  if flat.rooms = 0 then .error .zeroDivisionError
  else .ok (decide (flat.price / flat.rooms ≤ 35000))

/-- Embedding of `filter_metro`: some metro is in the allow-list and none is in the
block-list (each compared lowercased). -/
def filter_metro (flat : FlatListItem) : Except PyErr Bool :=
  .ok ((flat.metros.any fun m => METRO.contains (pyLower m)) &&
       !(flat.metros.any fun m => METRO_BLACKLIST.contains (pyLower m)))

/-- Embedding of `CianBot.filters`: the ordered filter chain. -/
def filters : List (FlatListItem → Except PyErr Bool) :=
  [filter_price_per_person, filter_metro]

/-- The loop of `CianBot.flat_ok`: first raising filter propagates, first
`False` short-circuits to `False`, otherwise `True`. -/
def flatOkGo : List (FlatListItem → Except PyErr Bool) → FlatListItem → Except PyErr Bool
  | [], _ => .ok true
  | p :: ps, flat =>
    match p flat with
    | .error e => .error e
    | .ok false => .ok false
    | .ok true => flatOkGo ps flat

/-- Embedding of `CianBot.flat_ok`. -/
def flat_ok (flat : FlatListItem) : Except PyErr Bool := flatOkGo filters flat

/-- Python `str()` of a rational, used for the f-string pieces of
`flat_to_message`.  The exact decimal rendering of Python numbers is not
modelled; only a deterministic rendering is needed (no claim inspects it). -/
def pyStr (q : ℚ) : String :=
  if q.den = 1 then toString q.num else toString q.num ++ "/" ++ toString q.den

def pyQuote : String := String.singleton (Char.ofNat 39)

/-- Python `repr` of a list of strings, for the `f'{flat.metros}'` piece
(quote escaping inside the strings is not modelled). -/
def pyReprStrList (l : List String) : String :=
  "[" ++ String.intercalate ", " (l.map (fun m => pyQuote ++ m ++ pyQuote)) ++ "]"

/-- The `['Price', 'deposit', 'fee', 'bonus']` attribute walk of
`flat_to_message` (`getattr(flat, k.lower())`). -/
def numFields (f : FlatListItem) : List (String × ℚ) :=
  [("Price", f.price), ("deposit", f.deposit), ("fee", f.fee), ("bonus", f.bonus)]

/-- Embedding of `CianBot.flat_to_message`: the notification body and the optional first
photo.  Python builds a dict `{text, photo?}`; `chat_id` is attached per
recipient in `handle_new_flat`, so the model returns the two shared parts. -/
def flat_to_message (f : FlatListItem) : String × Option String :=
  let priceParts :=
    ((numFields f).filter (fun p => decide (p.2 ≠ 0))).map
      (fun p => p.1 ++ " " ++ pyStr p.2)
  let text := String.intercalate ".\n"
    [f.pdf_link, String.intercalate ", " priceParts,
     toString f.bedrooms ++ " rooms", pyReprStrList f.metros]
  (text, f.photos.head?)

/-- The `for u in self.viewed` loop of `handle_new_flat`: for each recipient
whose set lacks `fid`, add `fid` to the set and append a message carrying the
recipient's chat id.  Returns the updated `viewed`, the appended messages in
loop order, and the ghost `(chat_id, fid)` events in the same order. -/
def notifyLoop (tm : String × Option String) (fid : Nat) :
    List (Nat × List Nat) → List (Nat × List Nat) × List Msg × List (Nat × Nat)
  | [] => ([], [], [])
  | (u, seen) :: rest =>
    if fid ∈ seen then
      let r := notifyLoop tm fid rest
      ((u, seen) :: r.1, r.2.1, r.2.2)
    else
      let r := notifyLoop tm fid rest
      ((u, seen ++ [fid]) :: r.1, ⟨tm.1, tm.2, u⟩ :: r.2.1, (u, fid) :: r.2.2)

/-- Embedding of `CianBot.handle_new_flat`: no-op when the id is already stored; otherwise
store the flat, run the filter chain (a raising filter propagates, with the
flat already stored), and on acceptance notify every registered recipient who
has not seen the id. -/
def handle_new_flat (s : CianState) (flat : FlatListItem) : CianState × Option PyErr :=
  if flat.id ∈ flatKeys s then (s, none)
  else
    let s1 : CianState := { s with flatlist := s.flatlist ++ [(flat.id, flat)] }
    match flat_ok flat with
    | .error e => (s1, some e)
    | .ok false => (s1, none)
    | .ok true =>
      let tm := flat_to_message flat
      let r := notifyLoop tm flat.id s1.viewed
      ({ s1 with viewed := r.1,
                 scheduled_messages := s1.scheduled_messages ++ r.2.1,
                 enqueue_log := s1.enqueue_log ++ r.2.2 }, none)

/-- The drain loop of `CianBot.send_messages`: pop the front message and hand
it to the transport; there is no try/except, so a failed send aborts the loop
with the failed message already popped.  Returns the remaining queue, the
successfully delivered messages in FIFO order, and the propagated error. -/
def sendMessagesGo (sendOk : Msg → Bool) : List Msg → List Msg × List Msg × Option PyErr
  | [] => ([], [], none)
  | m :: rest =>
    if sendOk m then
      let r := sendMessagesGo sendOk rest
      (r.1, m :: r.2.1, r.2.2)
    else (rest, [], some .transportError)

/-- Embedding of `CianBot.send_messages` with the transport modelled as a success oracle. -/
def send_messages (s : CianState) (sendOk : Msg → Bool) :
    CianState × List Msg × Option PyErr :=
  let r := sendMessagesGo sendOk s.scheduled_messages
  ({ s with scheduled_messages := r.1 }, r.2.1, r.2.2)

/-- Embedding of `CianBot.fetch_messages` (lines 164-176).  The source always raises
before changing any state: with a non-empty `flatlist`, the loop
`for f in self.flatlist` binds `f` to a dict key (an id), and `f.id` on an
int/str raises `AttributeError` at the first iteration (the body would next
hit the undefined name `flat`, a `NameError`); with an empty `flatlist` it
reaches `self.send_messages()`, which raises `TypeError` because the required
`context` argument is missing.  Either way nothing is enqueued, nothing is
marked viewed, and nothing is flushed. -/
def fetch_messages (s : CianState) (_chat : Nat) : CianState × PyErr :=
  if s.flatlist.isEmpty then (s, .typeError) else (s, .attributeError)

/-- Python dict assignment on an association list: overwrite in place if the
key exists (keeping its position), else append. -/
def setViewed : List (Nat × List Nat) → Nat → List Nat → List (Nat × List Nat)
  | [], c, v => [(c, v)]
  | (u, xs) :: rest, c, v =>
    if u = c then (u, v) :: rest else (u, xs) :: setViewed rest c v

/-- Embedding of `CianBot.start`: `self.viewed[chat_id] = set()`. -/
def start (s : CianState) (chat : Nat) : CianState :=
  { s with viewed := setViewed s.viewed chat [] }

/-- Insertion step of Python `sorted` on strings (code-point order). -/
def insertSorted (x : String) : List String → List String
  | [] => [x]
  | y :: ys => if compare x y = Ordering.gt then y :: insertSorted x ys else x :: y :: ys

def pySorted (l : List String) : List String := l.foldr insertSorted []

/-- The state change of `CianBot.observe_url` on a valid call:
`self.observed_urls = sorted(set(self.observed_urls + [url]))` (argument
arity checking, replies and job scheduling are transport-side effects). -/
def observe_url (s : CianState) (url : String) : CianState :=
  { s with observed_urls := pySorted ((s.observed_urls ++ [url]).dedup) }

/-- The `for f in flats: self.handle_new_flat(f)` loop inside `fetch_cian`'s
try block: an exception from `handle_new_flat` aborts the loop (state keeps
the mutations already made). -/
def handleFlats : CianState → List FlatListItem → CianState × Option PyErr
  | s, [] => (s, none)
  | s, f :: fs =>
    let r := handle_new_flat s f
    match r.2 with
    | some e => (r.1, some e)
    | none => handleFlats r.1 fs

/-- One iteration of `fetch_cian`'s URL loop, i.e. one try/except body:
fetch and parse the URL (oracle), handle each flat, then flush the queue.
Any exception is caught by the `except` clause, so the iteration never
propagates an error; it returns the new state and the messages delivered. -/
def processUrl (fetch : String → Except PyErr (List FlatListItem))
    (sendOk : Msg → Bool) (s : CianState) (url : String) : CianState × List Msg :=
  match fetch url with
  | .error _ => (s, [])
  | .ok flats =>
    let r := handleFlats s flats
    match r.2 with
    | some _ => (r.1, [])
    | none =>
      let r2 := send_messages r.1 sendOk
      (r2.1, r2.2.1)

/-- The URL loop of `fetch_cian`, accumulating delivered messages. -/
def fetchCianGo (fetch : String → Except PyErr (List FlatListItem))
    (sendOk : Msg → Bool) : CianState → List String → CianState × List Msg
  | s, [] => (s, [])
  | s, url :: rest =>
    let r := processUrl fetch sendOk s url
    let r2 := fetchCianGo fetch sendOk r.1 rest
    (r2.1, r.2 ++ r2.2)

/-- Embedding of `CianBot.fetch_cian`: no-op when no URLs are observed (the save is then
not reached); otherwise process every URL, then `self.save('.cian-backup')`.
The save call is outside any try block, so a persistence failure (oracle
`saveOk = false`) propagates out of `fetch_cian` as an uncaught error; the
in-memory state is whatever the URL loop produced. -/
def fetch_cian (s : CianState) (fetch : String → Except PyErr (List FlatListItem))
    (sendOk : Msg → Bool) (saveOk : Bool) : CianState × List Msg × Option PyErr :=
  if s.observed_urls.isEmpty then (s, [], none)
  else
    let r := fetchCianGo fetch sendOk s s.observed_urls
    (r.1, r.2, if saveOk then none else some .saveError)

/-- The command surface: one inbound command or internal trigger, with the
external collaborators (fetcher, transport, persistence) as oracles. -/
inductive Op where
  | startCmd (chat : Nat)
  | newFlat (flat : FlatListItem)
  | fetchMsgs (chat : Nat)
  | sendMsgs (sendOk : Msg → Bool)
  | observe (url : String)
  | cycle (fetch : String → Except PyErr (List FlatListItem))
      (sendOk : Msg → Bool) (saveOk : Bool)

def applyOp (s : CianState) : Op → CianState
  | .startCmd c => start s c
  | .newFlat f => (handle_new_flat s f).1
  | .fetchMsgs c => (fetch_messages s c).1
  | .sendMsgs sendOk => (send_messages s sendOk).1
  | .observe url => observe_url s url
  | .cycle fetch sendOk saveOk => (fetch_cian s fetch sendOk saveOk).1

def runOps (s : CianState) (ops : List Op) : CianState := ops.foldl applyOp s

/-- The engine invariant behind the no-duplicate-notification property:
every logged enqueue event is for a stored listing id, the event log has no
repeated `(recipient, id)` pair, and the recipient dict has no repeated key. -/
def Inv (s : CianState) : Prop :=
  s.enqueue_log.Nodup ∧ (∀ e ∈ s.enqueue_log, e.2 ∈ flatKeys s) ∧
    (s.viewed.map Prod.fst).Nodup

/-- Subscript lookup on a JSON object's field list.  `json.load` builds a
Python dict left to right, so on a duplicate key the last value wins; this
lookup has the same semantics on raw field lists. -/
def aLookup {α : Type} : List (String × α) → String → Option α
  | [], _ => none
  | p :: rest, k =>
    match aLookup rest k with
    | some v => some v
    | none => if p.1 = k then some p.2 else none

/-- Python dict item assignment `d[k] = v` on an association list: overwrite
the existing key in place, else append. -/
def setAssoc {α : Type} : List (String × α) → String × α → List (String × α)
  | [], p => [p]
  | q :: rest, p =>
    if q.1 = p.1 then (q.1, p.2) :: rest else q :: setAssoc rest p

/-- Python `dict.update` / dict construction: assign each pair in order. -/
def dictUpdate {α : Type} (d : List (String × α)) (l : List (String × α)) :
    List (String × α) := l.foldl setAssoc d

/-- Python `set(...)` over hashable scalars, observed as a duplicate-free
list.  Only membership is ever claimed (CPython's iteration order is
hash-dependent and is not modelled). -/
def pySet : List JScalar → List JScalar
  | [] => []
  | x :: xs =>
    let r := pySet xs
    if x ∈ r then r else x :: r

/-- A JSON value as a hashable scalar, if it is one (`set(...)` raises
`TypeError` on lists/dicts). -/
def JValue.toScalar : JValue → Option JScalar
  | .jnum q => some (.num q)
  | .jstr s => some (.str s)
  | _ => none

/-- Elementwise scalar conversion for `set(b)`; `none` models the
`TypeError` Python raises on an unhashable element. -/
def parseScalars : List JValue → Option (List JScalar)
  | [] => some []
  | x :: xs =>
    match x.toScalar, parseScalars xs with
    | some s, some rest => some (s :: rest)
    | _, _ => none

/-- The dict comprehension `{a: set(b) for a, b in state['viewed'].items()}`:
each value must be a JSON list of hashable scalars. -/
def parseViewed : List (String × JValue) → Option (List (String × List JScalar))
  | [] => some []
  | p :: rest =>
    match p.2 with
    | .jlist xs =>
      match parseScalars xs, parseViewed rest with
      | some ss, some r => some ((p.1, pySet ss) :: r)
      | _, _ => none
    | _ => none

/-- The in-memory state of a `CianBot` object right after `from_directory`:
dynamic typing leaves the dict keys as JSON strings, the `flatlist` /
`flat_details` / `scheduled_messages` / `observed_urls` entries as raw
parsed JSON values, and the `viewed` values as Python sets of scalars. -/
structure CianBotLoaded where
  flatlist : List (String × JValue)
  flat_details : List (String × JValue)
  viewed : List (String × List JScalar)
  scheduled_messages : List JValue
  observed_urls : List JValue

/-- Result of `attr.asdict` on a `FlatListItem` (nested attrs instances are converted
to dicts by `attr.asdict`'s recursion), then `json.dump`. -/
def flatJson (f : FlatListItem) : JValue :=
  .jobj [("id", .jnum f.id), ("price", .jnum f.price), ("rooms", .jnum f.rooms),
         ("metros", .jlist (f.metros.map .jstr)), ("pdf_link", .jstr f.pdf_link),
         ("deposit", .jnum f.deposit), ("fee", .jnum f.fee),
         ("bonus", .jnum f.bonus), ("bedrooms", .jnum f.bedrooms),
         ("photos", .jlist (f.photos.map .jstr))]

/-- A scheduled-message dict as JSON, in its Python insertion order
(`text`, then `photo` when present, then `chat_id`). -/
def msgJson (m : Msg) : JValue :=
  .jobj ([("text", .jstr m.text)] ++
    (match m.photo with | some p => [("photo", .jstr p)] | none => []) ++
    [("chat_id", .jnum m.chat_id)])

/-- The field list of `attr.asdict(CianStateSerializable(...))` as serialized
by `json.dump` in `CianBot.save`: fields in attrs declaration order; int dict
keys become JSON strings; `set` values become lists (`attr.asdict` with the
default `retain_collection_types=False`); the deque becomes a list. -/
def saveFields (s : CianState) : List (String × JValue) :=
  [("flatlist", .jobj (s.flatlist.map (fun p => (toString p.1, flatJson p.2)))),
   ("flat_details", .jobj s.flat_details),
   ("viewed", .jobj (s.viewed.map
       (fun p => (toString p.1, JValue.jlist (p.2.map jnumOfNat))))),
   ("observed_urls", .jlist (s.observed_urls.map .jstr)),
   ("scheduled_messages", .jlist (s.scheduled_messages.map msgJson))]

/-- Embedding of `CianBot.save`: the JSON document written to `state.json` (directory
creation and file I/O are not modelled). -/
def save (s : CianState) : JValue := .jobj (saveFields s)

/-- Embedding of `CianBot.from_directory` on a parsed `state.json` document: index the
five fields, `update` the fresh dicts with them, rebuild the `viewed` sets,
and extend the deque/list.  `none` models an uncaught exception (missing
key, wrong shape, unhashable set element); the partially constructed object
is discarded by the caller in that case. -/
def from_directory (j : JValue) : Option CianBotLoaded :=
  match j with
  | .jobj fields =>
    match aLookup fields "flatlist", aLookup fields "flat_details",
          aLookup fields "viewed", aLookup fields "scheduled_messages",
          aLookup fields "observed_urls" with
    | some (.jobj fl), some (.jobj fd), some (.jobj vfs),
      some (.jlist sm), some (.jlist ou) =>
      match parseViewed vfs with
      | some vp =>
        some { flatlist := dictUpdate [] fl, flat_details := dictUpdate [] fd,
               viewed := dictUpdate [] vp, scheduled_messages := sm,
               observed_urls := ou }
      | none => none
    | _, _, _, _, _ => none
  | _ => none

/-- Embedding of `CianBot.save` applied to a loaded (post-`from_directory`) object: the
same source lines, but the runtime values now are string-keyed dicts of raw
JSON values and sets of scalars, so `attr.asdict` + `json.dump` serialize
them as below. -/
def save_loaded (l : CianBotLoaded) : JValue :=
  .jobj [("flatlist", .jobj l.flatlist),
         ("flat_details", .jobj l.flat_details),
         ("viewed", .jobj (l.viewed.map
             (fun p => (p.1, JValue.jlist (p.2.map JScalar.toJValue))))),
         ("observed_urls", .jlist l.observed_urls),
         ("scheduled_messages", .jlist l.scheduled_messages)]

/-- Field access on a serialized state document. -/
def jField (v : JValue) (k : String) : Option JValue :=
  match v with
  | .jobj fs => aLookup fs k
  | _ => none

/-- Access to one entry of a map-valued field of a serialized document. -/
def jFieldKey (v : JValue) (f k : String) : Option JValue :=
  match jField v f with
  | some (.jobj fs) => aLookup fs k
  | _ => none

/- ===== concrete inputs for witnesses and counterexamples ===== -/

def exFlat3 : FlatListItem :=
  { id := 5, price := 20000, rooms := 1, metros := [], pdf_link := "a",
    deposit := 0, fee := 0, bonus := 0, bedrooms := 1, photos := [] }

def exFlat3b : FlatListItem := { exFlat3 with price := 50000 }

def exS3 : CianState := { initState with flatlist := [(5, exFlat3)] }

def exS4 : CianState := { initState with viewed := [(9, [])] }

def fetch4 : String → Except PyErr (List FlatListItem) :=
  fun u => if u = "bad" then .error .fetchError else .ok []

def sendOk4 : Msg → Bool := fun _ => true

def exFlat5 : FlatListItem :=
  { id := 1, price := 30000, rooms := 1, metros := ["Маяковская"],
    pdf_link := "p", deposit := 0, fee := 0, bonus := 0, bedrooms := 2,
    photos := [] }

def exS5 : CianState :=
  { initState with
    flatlist := [(1, exFlat5)], viewed := [(7, [1])],
    observed_urls := ["u"], enqueue_log := [(7, 1)] }

def fetchC5 : String → Except PyErr (List FlatListItem) := fun _ => .ok [exFlat5]

def sendOk5 : Msg → Bool := fun _ => true

def exFlat6 : FlatListItem :=
  { id := 2, price := 1000, rooms := 1, metros := [], pdf_link := "q",
    deposit := 0, fee := 0, bonus := 0, bedrooms := 1, photos := [] }

def exS6 : CianState := { initState with viewed := [(3, [])] }

def exMsg7a : Msg := ⟨"a", none, 1⟩

def exMsg7b : Msg := ⟨"b", none, 2⟩

def exS7 : CianState := { initState with scheduled_messages := [exMsg7a, exMsg7b] }

def sendOk7 : Msg → Bool := fun m => m.chat_id != 1

def exMsg7w1 : Msg := ⟨"w1", none, 1⟩

def exMsg7w2 : Msg := ⟨"w2", some "ph", 2⟩

def exMsg7w3 : Msg := ⟨"w3", none, 3⟩

def exS7w : CianState :=
  { initState with scheduled_messages := [exMsg7w1, exMsg7w2, exMsg7w3] }

def sendOk7w : Msg → Bool := fun m => m.chat_id != 2

def exFlat8 : FlatListItem :=
  { id := 1, price := 10000, rooms := 1, metros := [], pdf_link := "r",
    deposit := 0, fee := 0, bonus := 0, bedrooms := 1, photos := [] }

def exS8 : CianState :=
  { initState with flatlist := [(1, exFlat8)], viewed := [(7, [])] }

def exS9 : CianState := { initState with observed_urls := ["u"] }

def fetch9 : String → Except PyErr (List FlatListItem) := fun _ => .ok []

def sendOk9 : Msg → Bool := fun _ => true

def exS10 : CianState :=
  { initState with
    viewed := [(1, [3]), (2, [4])],
    scheduled_messages := [⟨"t", none, 1⟩] }

/- ===== helper lemmas ===== -/

theorem lookup_setViewed_self (l : List (Nat × List Nat)) (c : Nat) (v : List Nat) :
    (setViewed l c v).lookup c = some v := by
  induction l with
  | nil => simp [setViewed, List.lookup]
  | cons p rest ih =>
    obtain ⟨u, xs⟩ := p
    by_cases h : u = c
    · subst h; simp [setViewed, List.lookup]
    · have hb : (c == u) = false := beq_eq_false_iff_ne.mpr (Ne.symm h)
      simp [setViewed, h, List.lookup, hb, ih]

theorem lookup_setViewed_ne (l : List (Nat × List Nat)) (c c' : Nat) (v : List Nat)
    (h : c' ≠ c) : (setViewed l c v).lookup c' = l.lookup c' := by
  have hb : (c' == c) = false := beq_eq_false_iff_ne.mpr h
  induction l with
  | nil => simp [setViewed, List.lookup, hb]
  | cons p rest ih =>
    obtain ⟨u, xs⟩ := p
    by_cases hu : u = c
    · subst hu; simp [setViewed, List.lookup, hb]
    · simp [setViewed, hu, List.lookup, ih]

/-- The early-return of `handle_new_flat` when the id is already stored. -/
theorem handle_noop (s : CianState) (f : FlatListItem) (h : f.id ∈ flatKeys s) :
    handle_new_flat s f = (s, none) := by
  simp [handle_new_flat, h]

/- ===== claim theorems ===== -/

/-- Claim C3: inserting a listing whose id is already in the listing store is
a no-op (first write wins): `handle_new_flat` returns before evaluating a
single filter, so the state — stored attributes, delivery queue, notified
sets and ghost enqueue log — is returned unchanged and no error is raised. -/
theorem insert_idempotent (s : CianState) (f : FlatListItem)
    (h : f.id ∈ flatKeys s) : handle_new_flat s f = (s, none) :=
  handle_noop s f h

theorem insert_idempotent_witness :
    exFlat3b.id ∈ flatKeys exS3 ∧ handle_new_flat exS3 exFlat3b = (exS3, none) :=
  ⟨by decide, insert_idempotent exS3 exFlat3b (by decide)⟩

/-- Claim C8 (the code at the failing input): `fetch_messages` does not
perform the backlog-delivery variant.  On any state with a stored listing it
raises at the first loop iteration (`f.id` on a dict key; the body would
next hit the undefined name `flat`), before enqueueing anything, marking
anything seen, or flushing; on an empty store it raises `TypeError` at
`self.send_messages()`.  Here: a state with listing 1 stored and recipient 7
registered — the call returns the state unchanged with an
`AttributeError`. -/
theorem fetch_messages_failing_input :
    exS8.flatlist ≠ [] ∧
    fetch_messages exS8 7 = (exS8, PyErr.attributeError) ∧
    (fetch_messages exS8 7).1.scheduled_messages = exS8.scheduled_messages ∧
    (fetch_messages exS8 7).1.viewed = exS8.viewed ∧
    fetch_messages initState 7 = (initState, PyErr.typeError) :=
  ⟨by decide, rfl, rfl, rfl, rfl⟩

/-- Claim C10: `start s c` only resets recipient `c`'s notified set to the
empty set; the listing store, `flat_details`, the delivery queue, the source
URLs, the ghost log and every other recipient's notified set are unchanged,
and a subsequent flush delivers exactly the same messages as before the
`start`. -/
theorem start_frame (s : CianState) (c : Nat) :
    (start s c).flatlist = s.flatlist ∧
    (start s c).flat_details = s.flat_details ∧
    (start s c).scheduled_messages = s.scheduled_messages ∧
    (start s c).observed_urls = s.observed_urls ∧
    (start s c).enqueue_log = s.enqueue_log ∧
    (start s c).viewed.lookup c = some [] ∧
    (∀ c', c' ≠ c → (start s c).viewed.lookup c' = s.viewed.lookup c') ∧
    ∀ sendOk : Msg → Bool,
      (send_messages (start s c) sendOk).2.1 = (send_messages s sendOk).2.1 ∧
      (send_messages (start s c) sendOk).1.scheduled_messages =
        (send_messages s sendOk).1.scheduled_messages := by
  refine ⟨rfl, rfl, rfl, rfl, rfl, lookup_setViewed_self _ _ _, ?_, ?_⟩
  · intro c' h
    exact lookup_setViewed_ne s.viewed c c' [] h
  · intro sendOk
    exact ⟨rfl, rfl⟩

theorem start_frame_witness :
    (start exS10 1).scheduled_messages = exS10.scheduled_messages ∧
    (start exS10 1).viewed.lookup 1 = some [] ∧
    (start exS10 1).viewed.lookup 2 = exS10.viewed.lookup 2 := by
  obtain ⟨-, -, h3, -, -, h6, h7, -⟩ := start_frame exS10 1
  exact ⟨h3, h6, h7 2 (by decide)⟩

/-- Claim C5 counterexample: recipient 7 was notified about listing 1 (it is
in the store, in their notified set, and in the enqueue log), then issues
"start" again — the notified set is cleared — and the next reconciliation
cycle re-fetches the very same listing, which passes every filter; yet
nothing is enqueued and nothing is delivered for recipient 7, because
`handle_new_flat` returns as soon as it sees id 1 in `self.flatlist`,
before ever consulting the cleared notified set. -/
theorem resubscription_cex :
    flat_ok exFlat5 = Except.ok true ∧
    (start exS5 7).viewed = [(7, [])] ∧
    (fetch_cian (start exS5 7) fetchC5 sendOk5 true).1.scheduled_messages = [] ∧
    (fetch_cian (start exS5 7) fetchC5 sendOk5 true).2.1 = [] := by
  refine ⟨?_, rfl, rfl, rfl⟩
  have hp : filter_price_per_person exFlat5 = .ok true := by
    simp [filter_price_per_person, exFlat5]
    norm_num
  have hm : filter_metro exFlat5 = .ok true := rfl
  simp [flat_ok, filters, flatOkGo, hp, hm]

/-- Claim C5 amended: "start" does reset the recipient's notified set to
empty even if previously populated, but a listing already in the listing
store is NOT re-delivered on the next reconciliation: `handle_new_flat` is a
complete no-op for any stored id, regardless of the cleared set, so only
listings first seen after the reset are delivered. -/
theorem resubscription_amended (s : CianState) (c : Nat) (f : FlatListItem)
    (h : f.id ∈ flatKeys s) :
    (start s c).viewed.lookup c = some [] ∧
    handle_new_flat (start s c) f = (start s c, none) :=
  ⟨lookup_setViewed_self _ _ _, handle_noop _ f h⟩

theorem resubscription_amended_witness :
    exFlat5.id ∈ flatKeys exS5 ∧
    ((start exS5 7).viewed.lookup 7 = some [] ∧
      handle_new_flat (start exS5 7) exFlat5 = (start exS5 7, none)) :=
  ⟨by decide, resubscription_amended exS5 7 exFlat5 (by decide)⟩

/-- The drain loop when the transport accepts every queued message: the
queue is fully drained and every message is delivered in FIFO order. -/
theorem sendGo_all_ok (sendOk : Msg → Bool) (q : List Msg)
    (h : ∀ m ∈ q, sendOk m = true) :
    sendMessagesGo sendOk q = ([], q, none) := by
  induction q with
  | nil => rfl
  | cons m rest ih =>
    have hm : sendOk m = true := h m (List.mem_cons_self m rest)
    simp [sendMessagesGo, hm, ih fun x hx => h x (List.mem_cons_of_mem m hx)]

/-- The drain loop when the transport fails on message `bad`: everything
before `bad` is delivered, `bad` is popped and dropped, the loop aborts and
everything after `bad` stays queued. -/
theorem sendGo_fail (sendOk : Msg → Bool) (pre post : List Msg) (bad : Msg)
    (hpre : ∀ m ∈ pre, sendOk m = true) (hbad : sendOk bad = false) :
    sendMessagesGo sendOk (pre ++ bad :: post) = (post, pre, some .transportError) := by
  induction pre with
  | nil => simp [sendMessagesGo, hbad]
  | cons m rest ih =>
    have hm : sendOk m = true := hpre m (List.mem_cons_self m rest)
    simp [sendMessagesGo, hm,
      ih fun x hx => hpre x (List.mem_cons_of_mem m hx)]

/-- Claim C7 counterexample: queue `[a (chat 1), b (chat 2)]`, transport
failing on chat 1.  The flush hands nothing over (not even `b`), leaves `b`
in the queue, and ends with an uncaught `TelegramError` — so the queue is
not "fully drained" and the other message is not "still handed to the
transport". -/
theorem send_failure_cex :
    (send_messages exS7 sendOk7).2.1 = [] ∧
    (send_messages exS7 sendOk7).1.scheduled_messages = [exMsg7b] ∧
    (send_messages exS7 sendOk7).2.2 = some PyErr.transportError :=
  ⟨rfl, rfl, rfl⟩

/-- Claim C7 amended: when every send succeeds, the queue is fully drained
in FIFO order.  When a send fails, the failing message has already been
popped (dropped without retry); the messages before it were delivered in
FIFO order, but the flush aborts: the exception propagates to the caller
and the remaining messages stay in the queue, to be handed to the transport
only by a later flush. -/
theorem send_failure_amended (s : CianState) (sendOk : Msg → Bool) :
    ((∀ m ∈ s.scheduled_messages, sendOk m = true) →
      send_messages s sendOk =
        ({ s with scheduled_messages := [] }, s.scheduled_messages, none)) ∧
    ∀ pre bad post, s.scheduled_messages = pre ++ bad :: post →
      (∀ m ∈ pre, sendOk m = true) → sendOk bad = false →
      send_messages s sendOk =
        ({ s with scheduled_messages := post }, pre, some PyErr.transportError) := by
  constructor
  · intro h
    simp [send_messages, sendGo_all_ok sendOk _ h]
  · intro pre bad post hq hpre hbad
    simp [send_messages, hq, sendGo_fail sendOk pre post bad hpre hbad]

theorem send_failure_amended_witness :
    sendOk7w exMsg7w2 = false ∧
    send_messages exS7w sendOk7w =
      ({ exS7w with scheduled_messages := [exMsg7w3] }, [exMsg7w1],
        some PyErr.transportError) :=
  ⟨rfl, (send_failure_amended exS7w sendOk7w).2 [exMsg7w1] exMsg7w2 [exMsg7w3]
    rfl (by decide) rfl⟩

/-- Claim C9 counterexample: one observed URL whose fetch succeeds (empty
page) and a persistence write that fails — `fetch_cian` ends with an
uncaught error, because `self.save('.cian-backup')` at the end of the cycle
is outside the try block. -/
theorem save_failure_cex :
    (fetch_cian exS9 fetch9 sendOk9 false).2.2 = some PyErr.saveError := rfl

/-- Claim C9 amended: per-URL failures are caught inside the URL loop, but a
failure of the persistence step at the end of the cycle is not: it
propagates out of `fetch_cian` as an uncaught exception.  The in-memory
state and the delivered messages are nevertheless exactly those of a run
whose save succeeds (the cycle's mutations are retained). -/
theorem save_failure_amended (s : CianState)
    (fetch : String → Except PyErr (List FlatListItem)) (sendOk : Msg → Bool)
    (h : s.observed_urls ≠ []) :
    (fetch_cian s fetch sendOk false).2.2 = some PyErr.saveError ∧
    (fetch_cian s fetch sendOk false).1 = (fetch_cian s fetch sendOk true).1 ∧
    (fetch_cian s fetch sendOk false).2.1 = (fetch_cian s fetch sendOk true).2.1 := by
  have he : s.observed_urls.isEmpty = false := by
    simpa [List.isEmpty_iff] using h
  simp [fetch_cian, he]

theorem save_failure_amended_witness :
    exS9.observed_urls ≠ [] ∧
    (fetch_cian exS9 fetch9 sendOk9 false).2.2 = some PyErr.saveError :=
  ⟨by decide, (save_failure_amended exS9 fetch9 sendOk9 (by decide)).1⟩

/-- Lemma: `fetch_messages` never changes the state (both its paths raise first). -/
theorem fetch_messages_state (s : CianState) (c : Nat) :
    (fetch_messages s c).1 = s := by
  unfold fetch_messages
  split <;> rfl

/-- Claim C6: acceptance is the logical AND of the ordered filter chain
(`flat_ok` returns `ok true` exactly when every filter in `filters` does),
and a listing rejected by any single predicate is never enqueued for any
recipient, no matter how many other predicates it passes: `handle_new_flat`
leaves the delivery queue, every notified set and the enqueue log unchanged,
and `fetch_messages` never enqueues at all.  The failing predicate's
diagnostic logging is a side effect outside the model; in the source it does
not affect the returned boolean. -/
theorem filter_gating (f : FlatListItem) :
    (flat_ok f = .ok true ↔ ∀ p ∈ filters, p f = .ok true) ∧
    ∀ p ∈ filters, p f = .ok false →
      ∀ s : CianState,
        (handle_new_flat s f).1.scheduled_messages = s.scheduled_messages ∧
        (handle_new_flat s f).1.viewed = s.viewed ∧
        (handle_new_flat s f).1.enqueue_log = s.enqueue_log ∧
        ∀ c, (fetch_messages s c).1 = s := by
  have hiff : flat_ok f = .ok true ↔ ∀ p ∈ filters, p f = .ok true := by
    constructor
    · intro h p hp
      simp only [filters, List.mem_cons, List.not_mem_nil, or_false] at hp
      cases hfp : filter_price_per_person f with
      | error e => simp [flat_ok, filters, flatOkGo, hfp] at h
      | ok b =>
        cases b
        · simp [flat_ok, filters, flatOkGo, hfp] at h
        · rcases hp with rfl | rfl
          · exact hfp
          · cases hfm : filter_metro f with
            | error e => simp [flat_ok, filters, flatOkGo, hfp, hfm] at h
            | ok c =>
              cases c
              · simp [flat_ok, filters, flatOkGo, hfp, hfm] at h
              · rfl
    · intro h
      have h1 := h filter_price_per_person (by simp [filters])
      have h2 := h filter_metro (by simp [filters])
      simp [flat_ok, filters, flatOkGo, h1, h2]
  refine ⟨hiff, ?_⟩
  intro p hp hrej s
  have hnot : flat_ok f ≠ .ok true := by
    intro h
    have hh := (hiff.mp h) p hp
    rw [hrej] at hh
    simp at hh
  by_cases hid : f.id ∈ flatKeys s
  · rw [handle_noop s f hid]
    exact ⟨by trivial, by trivial, by trivial, fun c => fetch_messages_state s c⟩
  · cases hok : flat_ok f with
    | error e =>
      simp only [handle_new_flat, hid, if_false, hok]
      exact ⟨by trivial, by trivial, by trivial, fun c => fetch_messages_state s c⟩
    | ok b =>
      cases b
      · simp only [handle_new_flat, hid, if_false, hok]
        exact ⟨by trivial, by trivial, by trivial, fun c => fetch_messages_state s c⟩
      · exact absurd hok hnot

/-- A URL whose fetch/parse raises contributes nothing: the except clause
catches the error before any state change. -/
theorem processUrl_error (fetch : String → Except PyErr (List FlatListItem))
    (sendOk : Msg → Bool) (s : CianState) (url : String) (e : PyErr)
    (h : fetch url = .error e) : processUrl fetch sendOk s url = (s, []) := by
  simp [processUrl, h]

/-- Erasure: a URL whose fetch raises can be deleted from the cycle's URL
list without changing the cycle's outcome (state and delivered messages). -/
theorem fetchCianGo_erase (fetch : String → Except PyErr (List FlatListItem))
    (sendOk : Msg → Bool) (bad : String) (e : PyErr) (hbad : fetch bad = .error e)
    (l₁ : List String) (s : CianState) (l₂ : List String) :
    fetchCianGo fetch sendOk s (l₁ ++ bad :: l₂) =
      fetchCianGo fetch sendOk s (l₁ ++ l₂) := by
  induction l₁ generalizing s with
  | nil => simp [fetchCianGo, processUrl_error fetch sendOk s bad e hbad]
  | cons u l₁ ih => simp [fetchCianGo, ih]

/-- The listing store after `handle_new_flat`: unchanged on a duplicate id,
extended with the new id otherwise (also when a filter raised, since the
store assignment precedes `flat_ok`). -/
theorem flatKeys_handle (s : CianState) (f : FlatListItem) :
    flatKeys (handle_new_flat s f).1 =
      if f.id ∈ flatKeys s then flatKeys s else flatKeys s ++ [f.id] := by
  unfold handle_new_flat
  by_cases hid : f.id ∈ flatKeys s
  · simp [hid]
  · rw [if_neg hid, if_neg hid]
    cases hok : flat_ok f with
    | error e => simp [hok, flatKeys]
    | ok b => cases b <;> simp [hok, flatKeys]

theorem flatKeys_handle_self (s : CianState) (f : FlatListItem) :
    f.id ∈ flatKeys (handle_new_flat s f).1 := by
  rw [flatKeys_handle]
  by_cases hid : f.id ∈ flatKeys s <;> simp [hid]

theorem flatKeys_handle_mono (s : CianState) (f : FlatListItem) (x : Nat)
    (hx : x ∈ flatKeys s) : x ∈ flatKeys (handle_new_flat s f).1 := by
  rw [flatKeys_handle]
  by_cases hid : f.id ∈ flatKeys s <;> simp [hid, hx]

/-- With a nonzero room count the filter chain cannot raise (the only
raising point is the division in `filter_price_per_person`). -/
theorem flat_ok_no_error (f : FlatListItem) (h : f.rooms ≠ 0) :
    ∃ b, flat_ok f = .ok b := by
  have hp : filter_price_per_person f = .ok (decide (f.price / f.rooms ≤ 35000)) := by
    simp [filter_price_per_person, h]
  cases hm : filter_metro f with
  | error e => exact absurd hm (by simp [filter_metro])
  | ok c =>
    by_cases hb : decide (f.price / f.rooms ≤ 35000) = true
    · cases c
      · exact ⟨false, by simp [flat_ok, filters, flatOkGo, hp, hb, hm]⟩
      · exact ⟨true, by simp [flat_ok, filters, flatOkGo, hp, hb, hm]⟩
    · have hb2 : decide (f.price / f.rooms ≤ 35000) = false := by
        simpa using hb
      exact ⟨false, by simp [flat_ok, filters, flatOkGo, hp, hb2]⟩

theorem handle_no_error (s : CianState) (f : FlatListItem) (h : f.rooms ≠ 0) :
    (handle_new_flat s f).2 = none := by
  obtain ⟨b, hb⟩ := flat_ok_no_error f h
  by_cases hid : f.id ∈ flatKeys s
  · simp [handle_new_flat, hid]
  · cases b <;> simp [handle_new_flat, hid, hb]

/-- Flushing the queue never touches the listing store. -/
theorem flatKeys_send (s : CianState) (sendOk : Msg → Bool) :
    flatKeys (send_messages s sendOk).1 = flatKeys s := rfl

theorem handleFlats_mono (flats : List FlatListItem) :
    ∀ (s : CianState) (x : Nat), x ∈ flatKeys s →
      x ∈ flatKeys (handleFlats s flats).1 := by
  induction flats with
  | nil => intro s x hx; exact hx
  | cons f fs ih =>
    intro s x hx
    unfold handleFlats
    cases he : (handle_new_flat s f).2 with
    | some e => simpa [he] using flatKeys_handle_mono s f x hx
    | none => simpa [he] using ih _ x (flatKeys_handle_mono s f x hx)

theorem handleFlats_mem (flats : List FlatListItem)
    (hr : ∀ g ∈ flats, g.rooms ≠ 0) :
    ∀ (s : CianState), ∀ f ∈ flats, f.id ∈ flatKeys (handleFlats s flats).1 := by
  induction flats with
  | nil => intro s f hf; exact absurd hf (List.not_mem_nil f)
  | cons g fs ih =>
    intro s f hf
    have hg : (handle_new_flat s g).2 = none :=
      handle_no_error s g (hr g (List.mem_cons_self g fs))
    rcases List.mem_cons.mp hf with rfl | hf2
    · simp only [handleFlats, hg]
      exact handleFlats_mono fs _ f.id (flatKeys_handle_self s f)
    · simp only [handleFlats, hg]
      exact ih (fun x hx => hr x (List.mem_cons_of_mem g hx)) _ f hf2

theorem processUrl_mono (fetch : String → Except PyErr (List FlatListItem))
    (sendOk : Msg → Bool) (s : CianState) (url : String) (x : Nat)
    (hx : x ∈ flatKeys s) : x ∈ flatKeys (processUrl fetch sendOk s url).1 := by
  unfold processUrl
  cases hf : fetch url with
  | error e => exact hx
  | ok flats =>
    cases he : (handleFlats s flats).2 with
    | some e => simpa [he] using handleFlats_mono flats s x hx
    | none =>
      simp only [he]
      rw [flatKeys_send]
      exact handleFlats_mono flats s x hx

theorem fetchCianGo_mono (fetch : String → Except PyErr (List FlatListItem))
    (sendOk : Msg → Bool) (urls : List String) :
    ∀ (s : CianState) (x : Nat), x ∈ flatKeys s →
      x ∈ flatKeys (fetchCianGo fetch sendOk s urls).1 := by
  induction urls with
  | nil => intro s x hx; exact hx
  | cons u rest ih =>
    intro s x hx
    unfold fetchCianGo
    exact ih _ x (processUrl_mono fetch sendOk s u x hx)

/-- Every listing returned by a successfully fetched URL of the cycle ends
up in the listing store (assuming no listing has a zero room count, which
would raise mid-loop in Python). -/
theorem fetchCianGo_mem (fetch : String → Except PyErr (List FlatListItem))
    (sendOk : Msg → Bool) (urls : List String)
    (hr : ∀ url ∈ urls, ∀ flats, fetch url = .ok flats → ∀ g ∈ flats, g.rooms ≠ 0) :
    ∀ (s : CianState), ∀ url ∈ urls, ∀ flats, fetch url = .ok flats →
      ∀ f ∈ flats, f.id ∈ flatKeys (fetchCianGo fetch sendOk s urls).1 := by
  induction urls with
  | nil => intro s url hu; exact absurd hu (List.not_mem_nil url)
  | cons u rest ih =>
    intro s url hu flats hf f hfm
    rcases List.mem_cons.mp hu with rfl | hu2
    · unfold fetchCianGo
      refine fetchCianGo_mono fetch sendOk rest _ f.id ?_
      unfold processUrl
      rw [hf]
      have hmem : f.id ∈ flatKeys (handleFlats s flats).1 :=
        handleFlats_mem flats
          (hr url (List.mem_cons_self url rest) flats hf) s f hfm
      cases he : (handleFlats s flats).2 with
      | some e => simpa [he] using hmem
      | none =>
        simp only [he]
        rw [flatKeys_send]
        exact hmem
    · unfold fetchCianGo
      exact ih (fun x hx => hr x (List.mem_cons_of_mem u hx)) _ url hu2 flats hf f hfm

/-- Claim C4: partial-failure isolation of the reconciliation cycle.  If one
URL's fetch/parse raises, the cycle is exactly the cycle with that URL
deleted — the remaining URLs are fully processed, and (provided no fetched
listing has a zero room count, which would itself raise inside the loop)
every listing they return is inserted into the store; their notifications
go through the same enqueue-and-flush as in the failure-free cycle. -/
theorem fetch_failure_isolation (s : CianState)
    (fetch : String → Except PyErr (List FlatListItem)) (sendOk : Msg → Bool)
    (l₁ l₂ : List String) (bad : String) (e : PyErr)
    (hbad : fetch bad = .error e)
    (hr : ∀ url ∈ l₁ ++ l₂, ∀ flats, fetch url = .ok flats → ∀ g ∈ flats, g.rooms ≠ 0) :
    fetchCianGo fetch sendOk s (l₁ ++ bad :: l₂) =
      fetchCianGo fetch sendOk s (l₁ ++ l₂) ∧
    ∀ url ∈ l₁ ++ l₂, ∀ flats, fetch url = .ok flats → ∀ f ∈ flats,
      f.id ∈ flatKeys (fetchCianGo fetch sendOk s (l₁ ++ bad :: l₂)).1 := by
  have herase := fetchCianGo_erase fetch sendOk bad e hbad l₁ s l₂
  refine ⟨herase, ?_⟩
  intro url hu flats hf f hfm
  rw [herase]
  exact fetchCianGo_mem fetch sendOk (l₁ ++ l₂) hr s url hu flats hf f hfm

theorem fetch_failure_isolation_witness :
    fetch4 "bad" = Except.error PyErr.fetchError ∧
    fetchCianGo fetch4 sendOk4 exS4 (["g1"] ++ "bad" :: ["g2"]) =
      fetchCianGo fetch4 sendOk4 exS4 (["g1"] ++ ["g2"]) := by
  have hr : ∀ url ∈ ["g1"] ++ ["g2"], ∀ flats, fetch4 url = .ok flats →
      ∀ g ∈ flats, g.rooms ≠ 0 := by
    intro url hu flats hf g hg
    have : flats = [] := by
      rcases List.mem_cons.mp hu with rfl | hu2
      · have he : fetch4 "g1" = .ok [] := rfl
        rw [he] at hf
        exact (Except.ok.injEq _ _).mp hf.symm
      · rcases List.mem_cons.mp hu2 with rfl | hu3
        · have he : fetch4 "g2" = .ok [] := rfl
          rw [he] at hf
          exact (Except.ok.injEq _ _).mp hf.symm
        · exact absurd hu3 (List.not_mem_nil url)
    subst this
    exact absurd hg (List.not_mem_nil g)
  exact ⟨rfl,
    (fetch_failure_isolation exS4 fetch4 sendOk4 ["g1"] ["g2"] "bad"
      PyErr.fetchError rfl hr).1⟩

theorem aLookup_not_mem {α : Type} (l : List (String × α)) (k : String)
    (h : k ∉ l.map Prod.fst) : aLookup l k = none := by
  induction l with
  | nil => rfl
  | cons p rest ih =>
    have h1 : k ∉ rest.map Prod.fst := fun hh => h (List.mem_cons_of_mem _ hh)
    have h2 : p.1 ≠ k := fun hh => h (by simp [hh.symm])
    simp [aLookup, ih h1, h2]

theorem aLookup_map_value {α β : Type} (l : List (String × α)) (g : α → β) (k : String) :
    aLookup (l.map (fun p => (p.1, g p.2))) k = (aLookup l k).map g := by
  induction l with
  | nil => rfl
  | cons p rest ih =>
    simp only [List.map_cons, aLookup, ih]
    cases aLookup rest k with
    | some v => rfl
    | none => by_cases h : p.1 = k <;> simp [h]

theorem setAssoc_keys {α : Type} (d : List (String × α)) (p : String × α) :
    (setAssoc d p).map Prod.fst =
      if p.1 ∈ d.map Prod.fst then d.map Prod.fst else d.map Prod.fst ++ [p.1] := by
  induction d with
  | nil => simp [setAssoc]
  | cons q rest ih =>
    by_cases h : q.1 = p.1
    · simp [setAssoc, h]
    · by_cases hm : p.1 ∈ rest.map Prod.fst <;>
        simp [setAssoc, h, ih, hm, Ne.symm h]

theorem setAssoc_keys_nodup {α : Type} (d : List (String × α)) (p : String × α)
    (h : (d.map Prod.fst).Nodup) : ((setAssoc d p).map Prod.fst).Nodup := by
  rw [setAssoc_keys]
  by_cases hm : p.1 ∈ d.map Prod.fst
  · simpa [hm] using h
  · rw [if_neg hm]
    refine List.Nodup.append h (List.nodup_singleton _) ?_
    intro a ha hae
    rw [List.mem_singleton.mp hae] at ha
    exact hm ha

theorem aLookup_setAssoc {α : Type} (d : List (String × α)) (p : String × α)
    (k : String) (h : (d.map Prod.fst).Nodup) :
    aLookup (setAssoc d p) k = if p.1 = k then some p.2 else aLookup d k := by
  induction d with
  | nil => by_cases hpk : p.1 = k <;> simp [setAssoc, aLookup, hpk]
  | cons q rest ih =>
    rw [List.map_cons, List.nodup_cons] at h
    obtain ⟨hq, hrest⟩ := h
    have ihr := ih hrest
    by_cases hqp : q.1 = p.1
    · simp only [setAssoc, if_pos hqp]
      by_cases hpk : p.1 = k
      · subst hpk
        have hkr : aLookup rest p.1 = none := by
          refine aLookup_not_mem rest p.1 ?_
          rw [← hqp]
          exact hq
        simp [aLookup, hkr, hqp]
      · have hqk : ¬ q.1 = k := fun hh => hpk (hqp ▸ hh)
        cases hr : aLookup rest k <;> simp [aLookup, hr, hqk, hpk]
    · simp only [setAssoc, if_neg hqp]
      by_cases hpk : p.1 = k
      · rw [if_pos hpk]
        have hs : aLookup (setAssoc rest p) k = some p.2 := by
          rw [ihr, if_pos hpk]
        simp [aLookup, hs]
      · rw [if_neg hpk]
        have hs : aLookup (setAssoc rest p) k = aLookup rest k := by
          rw [ihr, if_neg hpk]
        cases hr : aLookup rest k <;>
          simp [aLookup, hs, hr]

theorem dictUpdate_lookup {α : Type} (L : List (String × α)) :
    ∀ (d : List (String × α)), (d.map Prod.fst).Nodup → ∀ k,
      aLookup (dictUpdate d L) k =
        match aLookup L k with
        | some v => some v
        | none => aLookup d k := by
  induction L with
  | nil => intro d h k; simp [dictUpdate, aLookup]
  | cons p L ih =>
    intro d h k
    have hstep : dictUpdate d (p :: L) = dictUpdate (setAssoc d p) L := rfl
    rw [hstep, ih (setAssoc d p) (setAssoc_keys_nodup d p h) k,
        aLookup_setAssoc d p k h]
    cases hL : aLookup L k with
    | some v => simp [aLookup, hL]
    | none => by_cases hpk : p.1 = k <;> simp [aLookup, hL, hpk]

theorem dictUpdate_nil_lookup {α : Type} (L : List (String × α)) (k : String) :
    aLookup (dictUpdate ([] : List (String × α)) L) k = aLookup L k := by
  rw [dictUpdate_lookup L [] (by simp) k]
  cases aLookup L k <;> rfl

theorem pySet_mem (l : List JScalar) : ∀ x, x ∈ pySet l ↔ x ∈ l := by
  induction l with
  | nil => intro x; simp [pySet]
  | cons y ys ih =>
    intro x
    simp only [pySet]
    by_cases h : y ∈ pySet ys
    · rw [if_pos h, ih x]
      constructor
      · intro hx; exact List.mem_cons_of_mem y hx
      · intro hx
        rcases List.mem_cons.mp hx with rfl | hx2
        · exact (ih x).mp h
        · exact hx2
    · rw [if_neg h]
      simp [List.mem_cons, ih x]

theorem parseScalars_map (xs : List Nat) :
    parseScalars (xs.map jnumOfNat) = some (xs.map scalarOfNat) := by
  induction xs with
  | nil => rfl
  | cons n ns ih =>
    simp [parseScalars, jnumOfNat, scalarOfNat, JValue.toScalar, ih]

theorem parseViewed_map (l : List (Nat × List Nat)) :
    parseViewed (l.map (fun p =>
        (toString p.1, JValue.jlist (p.2.map jnumOfNat)))) =
      some (l.map (fun p =>
        (toString p.1, pySet (p.2.map scalarOfNat)))) := by
  induction l with
  | nil => rfl
  | cons p rest ih => simp [parseViewed, parseScalars_map, ih]

/-- Loading a saved state: the five fields are found, the dicts are rebuilt
with string keys, the `viewed` sets are rebuilt via `set(...)`. -/
theorem from_directory_save (s : CianState) :
    from_directory (save s) = some
      { flatlist := dictUpdate []
          (s.flatlist.map (fun p => (toString p.1, flatJson p.2))),
        flat_details := dictUpdate [] s.flat_details,
        viewed := dictUpdate []
          (s.viewed.map (fun p =>
            (toString p.1, pySet (p.2.map scalarOfNat)))),
        scheduled_messages := s.scheduled_messages.map msgJson,
        observed_urls := s.observed_urls.map .jstr } := by
  have h1 : aLookup (saveFields s) "flatlist" =
      some (.jobj (s.flatlist.map (fun p => (toString p.1, flatJson p.2)))) := rfl
  have h2 : aLookup (saveFields s) "flat_details" = some (.jobj s.flat_details) := rfl
  have h3 : aLookup (saveFields s) "viewed" =
      some (.jobj (s.viewed.map (fun p =>
        (toString p.1, JValue.jlist (p.2.map jnumOfNat))))) := rfl
  have h4 : aLookup (saveFields s) "scheduled_messages" =
      some (.jlist (s.scheduled_messages.map msgJson)) := rfl
  have h5 : aLookup (saveFields s) "observed_urls" =
      some (.jlist (s.observed_urls.map .jstr)) := rfl
  simp only [from_directory, save, h1, h2, h3, h4, h5, parseViewed_map]

/-- Joint lookup into the two serialized forms of the `viewed` map: the one
written by the first save (raw int lists) and the one written after a load
(sets rebuilt by `set(...)`).  Either both keys are absent or both map the
key to the same underlying id list. -/
theorem viewed_lookup_pair (l : List (Nat × List Nat)) (k : String) :
    (aLookup (l.map (fun p =>
        (toString p.1, pySet (p.2.map scalarOfNat)))) k = none ∧
     aLookup (l.map (fun p =>
        (toString p.1, JValue.jlist (p.2.map jnumOfNat)))) k = none) ∨
    ∃ v : List Nat,
      aLookup (l.map (fun p =>
          (toString p.1, pySet (p.2.map scalarOfNat)))) k =
        some (pySet (v.map scalarOfNat)) ∧
      aLookup (l.map (fun p =>
          (toString p.1, JValue.jlist (p.2.map jnumOfNat)))) k =
        some (JValue.jlist (v.map jnumOfNat)) := by
  induction l with
  | nil => left; exact ⟨rfl, rfl⟩
  | cons p rest ih =>
    rcases ih with ⟨h1, h2⟩ | ⟨v, h1, h2⟩
    · by_cases hk : toString p.1 = k
      · right
        exact ⟨p.2, by simp [aLookup, h1, hk], by simp [aLookup, h2, hk]⟩
      · left
        exact ⟨by simp [aLookup, h1, hk], by simp [aLookup, h2, hk]⟩
    · right
      exact ⟨v, by simp [aLookup, h1], by simp [aLookup, h2]⟩

theorem jFieldKey_loaded_flatlist (l : CianBotLoaded) (k : String) :
    jFieldKey (save_loaded l) "flatlist" k = aLookup l.flatlist k := rfl

theorem jFieldKey_loaded_details (l : CianBotLoaded) (k : String) :
    jFieldKey (save_loaded l) "flat_details" k = aLookup l.flat_details k := rfl

theorem jFieldKey_loaded_viewed (l : CianBotLoaded) (k : String) :
    jFieldKey (save_loaded l) "viewed" k =
      aLookup (l.viewed.map
        (fun p => (p.1, JValue.jlist (p.2.map JScalar.toJValue)))) k := rfl

theorem jField_loaded_urls (l : CianBotLoaded) :
    jField (save_loaded l) "observed_urls" = some (.jlist l.observed_urls) := rfl

theorem jField_loaded_sched (l : CianBotLoaded) :
    jField (save_loaded l) "scheduled_messages" =
      some (.jlist l.scheduled_messages) := rfl

theorem jFieldKey_save_flatlist (s : CianState) (k : String) :
    jFieldKey (save s) "flatlist" k =
      aLookup (s.flatlist.map (fun p => (toString p.1, flatJson p.2))) k := rfl

theorem jFieldKey_save_details (s : CianState) (k : String) :
    jFieldKey (save s) "flat_details" k = aLookup s.flat_details k := rfl

theorem jFieldKey_save_viewed (s : CianState) (k : String) :
    jFieldKey (save s) "viewed" k =
      aLookup (s.viewed.map
        (fun p => (toString p.1, JValue.jlist (p.2.map jnumOfNat)))) k := rfl

theorem jField_save_urls (s : CianState) :
    jField (save s) "observed_urls" =
      some (.jlist (s.observed_urls.map .jstr)) := rfl

theorem jField_save_sched (s : CianState) :
    jField (save s) "scheduled_messages" =
      some (.jlist (s.scheduled_messages.map msgJson)) := rfl

theorem count_le_one_of_nodup {α : Type} [BEq α] [LawfulBEq α] (l : List α)
    (h : l.Nodup) (x : α) : l.count x ≤ 1 := by
  induction l with
  | nil => simp
  | cons b l ih =>
    rw [List.count_cons]
    rcases List.nodup_cons.mp h with ⟨hb, hl⟩
    by_cases hx : x = b
    · subst hx
      have hz : l.count x = 0 := List.count_eq_zero.mpr hb
      simp [hz]
    · have hbf : (b == x) = false := beq_eq_false_iff_ne.mpr (Ne.symm hx)
      simp [hbf, ih hl]

theorem notifyLoop_viewed (tm : String × Option String) (fid : Nat)
    (l : List (Nat × List Nat)) :
    (notifyLoop tm fid l).1 =
      l.map (fun p => (p.1, if fid ∈ p.2 then p.2 else p.2 ++ [fid])) := by
  induction l with
  | nil => rfl
  | cons p rest ih =>
    obtain ⟨u, seen⟩ := p
    by_cases h : fid ∈ seen <;> simp [notifyLoop, h, ih]

theorem notifyLoop_events (tm : String × Option String) (fid : Nat)
    (l : List (Nat × List Nat)) :
    (notifyLoop tm fid l).2.2 =
      (l.filter (fun p => decide (fid ∉ p.2))).map (fun p => (p.1, fid)) := by
  induction l with
  | nil => rfl
  | cons p rest ih =>
    obtain ⟨u, seen⟩ := p
    by_cases h : fid ∈ seen <;> simp [notifyLoop, h, ih]

/-- Exact characterization of the ghost enqueue log across
`handle_new_flat`: events are appended exactly for a fresh, accepted
listing, and exactly for the recipients whose notified set does not already
contain the id. -/
theorem handle_log_eq (s : CianState) (f : FlatListItem) :
    (handle_new_flat s f).1.enqueue_log =
      s.enqueue_log ++
        (if f.id ∈ flatKeys s then []
         else match flat_ok f with
           | .ok true =>
             (s.viewed.filter (fun p => decide (f.id ∉ p.2))).map (fun p => (p.1, f.id))
           | _ => []) := by
  by_cases hid : f.id ∈ flatKeys s
  · rw [handle_noop s f hid, if_pos hid]
    simp
  · rw [if_neg hid]
    cases hok : flat_ok f with
    | error e => simp [handle_new_flat, hid, hok]
    | ok b =>
      cases b
      · simp [handle_new_flat, hid, hok]
      · simp [handle_new_flat, hid, hok, notifyLoop_events]

/-- Exact characterization of the notified sets across `handle_new_flat`:
for a fresh, accepted listing the id is added to exactly the recipients
that lacked it (the same recipients that receive a message); in every other
case the sets are untouched. -/
theorem handle_viewed_eq (s : CianState) (f : FlatListItem) :
    (handle_new_flat s f).1.viewed =
      (if f.id ∈ flatKeys s then s.viewed
       else match flat_ok f with
         | .ok true =>
           s.viewed.map (fun p => (p.1, if f.id ∈ p.2 then p.2 else p.2 ++ [f.id]))
         | _ => s.viewed) := by
  by_cases hid : f.id ∈ flatKeys s
  · rw [handle_noop s f hid, if_pos hid]
  · rw [if_neg hid]
    cases hok : flat_ok f with
    | error e => simp [handle_new_flat, hid, hok]
    | ok b =>
      cases b
      · simp [handle_new_flat, hid, hok]
      · simp [handle_new_flat, hid, hok, notifyLoop_viewed]

theorem inv_handle (s : CianState) (f : FlatListItem) (h : Inv s) :
    Inv (handle_new_flat s f).1 := by
  obtain ⟨hnod, hmem, hkeys⟩ := h
  refine ⟨?_, ?_, ?_⟩
  · rw [handle_log_eq]
    by_cases hid : f.id ∈ flatKeys s
    · simpa [hid] using hnod
    · rw [if_neg hid]
      cases hok : flat_ok f with
      | error e => simpa using hnod
      | ok b =>
        cases b
        · simpa using hnod
        · refine List.Nodup.append hnod ?_ ?_
          · have hsub : List.Sublist
                ((s.viewed.filter (fun p => decide (f.id ∉ p.2))).map Prod.fst)
                (s.viewed.map Prod.fst) :=
              List.Sublist.map Prod.fst (List.filter_sublist s.viewed)
            have hknd : ((s.viewed.filter (fun p => decide (f.id ∉ p.2))).map Prod.fst).Nodup :=
              List.Nodup.sublist hsub hkeys
            have heq : (s.viewed.filter (fun p => decide (f.id ∉ p.2))).map
                  (fun p => (p.1, f.id)) =
                ((s.viewed.filter (fun p => decide (f.id ∉ p.2))).map Prod.fst).map
                  (fun k => (k, f.id)) := by
              rw [List.map_map]
              rfl
            rw [heq]
            refine List.Nodup.map ?_ hknd
            intro a b hab
            simpa using hab
          · intro a ha hae
            rcases List.mem_map.mp hae with ⟨p, hp, hpe⟩
            have : a.2 = f.id := by rw [← hpe]
            exact hid (this ▸ hmem a ha)
  · intro e he
    rw [handle_log_eq] at he
    rw [flatKeys_handle]
    by_cases hid : f.id ∈ flatKeys s
    · rw [if_pos hid] at he ⊢
      exact hmem e (by simpa using he)
    · rw [if_neg hid] at he ⊢
      cases hok : flat_ok f with
      | error e2 =>
        rw [hok] at he
        simp only [List.append_nil] at he
        exact List.mem_append_left _ (hmem e he)
      | ok b =>
        cases b
        · rw [hok] at he
          simp only [List.append_nil] at he
          exact List.mem_append_left _ (hmem e he)
        · rw [hok] at he
          rcases List.mem_append.mp he with h1 | h2
          · exact List.mem_append_left _ (hmem e h1)
          · rcases List.mem_map.mp h2 with ⟨p, hp, hpe⟩
            rw [← hpe]
            exact List.mem_append_right _ (by simp)
  · rw [handle_viewed_eq]
    by_cases hid : f.id ∈ flatKeys s
    · simpa [hid] using hkeys
    · rw [if_neg hid]
      cases hok : flat_ok f with
      | error e => exact hkeys
      | ok b =>
        cases b
        · exact hkeys
        · simpa [List.map_map, Function.comp] using hkeys

theorem setViewed_keys (l : List (Nat × List Nat)) (c : Nat) (v : List Nat) :
    (setViewed l c v).map Prod.fst =
      if c ∈ l.map Prod.fst then l.map Prod.fst else l.map Prod.fst ++ [c] := by
  induction l with
  | nil => simp [setViewed]
  | cons p rest ih =>
    obtain ⟨u, xs⟩ := p
    by_cases h : u = c
    · subst h; simp [setViewed]
    · by_cases hc : c ∈ rest.map Prod.fst <;>
        simp [setViewed, h, ih, hc, Ne.symm h]

theorem inv_start (s : CianState) (c : Nat) (h : Inv s) : Inv (start s c) := by
  obtain ⟨hnod, hmem, hkeys⟩ := h
  refine ⟨hnod, hmem, ?_⟩
  show ((setViewed s.viewed c []).map Prod.fst).Nodup
  rw [setViewed_keys]
  by_cases hc : c ∈ s.viewed.map Prod.fst
  · simpa [hc] using hkeys
  · rw [if_neg hc]
    refine List.Nodup.append hkeys (List.nodup_singleton c) ?_
    intro a ha hae
    rw [List.mem_singleton.mp hae] at ha
    exact hc ha

theorem inv_send (s : CianState) (sendOk : Msg → Bool) (h : Inv s) :
    Inv (send_messages s sendOk).1 := h

theorem inv_observe (s : CianState) (url : String) (h : Inv s) :
    Inv (observe_url s url) := h

theorem inv_handleFlats (flats : List FlatListItem) :
    ∀ s : CianState, Inv s → Inv (handleFlats s flats).1 := by
  induction flats with
  | nil => intro s h; exact h
  | cons f fs ih =>
    intro s h
    simp only [handleFlats]
    cases he : (handle_new_flat s f).2 with
    | some e => simp only [he]; exact inv_handle s f h
    | none => simp only [he]; exact ih _ (inv_handle s f h)

theorem inv_processUrl (fetch : String → Except PyErr (List FlatListItem))
    (sendOk : Msg → Bool) (s : CianState) (url : String) (h : Inv s) :
    Inv (processUrl fetch sendOk s url).1 := by
  unfold processUrl
  cases hf : fetch url with
  | error e => exact h
  | ok flats =>
    cases he : (handleFlats s flats).2 with
    | some e => simp only [he]; exact inv_handleFlats flats s h
    | none => simp only [he]; exact inv_send _ sendOk (inv_handleFlats flats s h)

theorem inv_fetchCianGo (fetch : String → Except PyErr (List FlatListItem))
    (sendOk : Msg → Bool) (urls : List String) :
    ∀ s : CianState, Inv s → Inv (fetchCianGo fetch sendOk s urls).1 := by
  induction urls with
  | nil => intro s h; exact h
  | cons u rest ih =>
    intro s h
    unfold fetchCianGo
    exact ih _ (inv_processUrl fetch sendOk s u h)

theorem inv_cycle (s : CianState) (fetch : String → Except PyErr (List FlatListItem))
    (sendOk : Msg → Bool) (saveOk : Bool) (h : Inv s) :
    Inv (fetch_cian s fetch sendOk saveOk).1 := by
  unfold fetch_cian
  by_cases he : s.observed_urls.isEmpty
  · simpa [he] using h
  · simpa [he] using inv_fetchCianGo fetch sendOk s.observed_urls s h

theorem inv_applyOp (s : CianState) (op : Op) (h : Inv s) : Inv (applyOp s op) := by
  cases op with
  | startCmd c => exact inv_start s c h
  | newFlat f => exact inv_handle s f h
  | fetchMsgs c => rw [applyOp, fetch_messages_state]; exact h
  | sendMsgs sendOk => exact inv_send s sendOk h
  | observe url => exact inv_observe s url h
  | cycle fetch sendOk saveOk => exact inv_cycle s fetch sendOk saveOk h

theorem inv_runOps (ops : List Op) :
    ∀ s : CianState, Inv s → Inv (runOps s ops) := by
  induction ops with
  | nil => intro s h; exact h
  | cons op rest ih =>
    intro s h
    exact ih _ (inv_applyOp s op h)

/-- Claim C2: persistence round-trip.  For every engine state, saving it,
loading the document with `from_directory` and saving again yields a
semantically equal document: the `flatlist` and `flat_details` maps have
equal contents (every key maps to the same value), the `viewed` maps have
the same keys and, per recipient, notified sets with the same members (only
set membership survives Python's `set(...)`, whose iteration order is not
specified), the `observed_urls` list is identical (sorted order preserved)
and the `scheduled_messages` list is identical and in the same order. -/
theorem save_load_roundtrip (s : CianState) :
    ∃ l, from_directory (save s) = some l ∧
      (∀ k, jFieldKey (save_loaded l) "flatlist" k = jFieldKey (save s) "flatlist" k) ∧
      (∀ k, jFieldKey (save_loaded l) "flat_details" k =
        jFieldKey (save s) "flat_details" k) ∧
      (∀ k, (jFieldKey (save_loaded l) "viewed" k).isSome =
        (jFieldKey (save s) "viewed" k).isSome) ∧
      (∀ k x, (∃ xs, jFieldKey (save_loaded l) "viewed" k = some (.jlist xs) ∧ x ∈ xs) ↔
              (∃ xs, jFieldKey (save s) "viewed" k = some (.jlist xs) ∧ x ∈ xs)) ∧
      jField (save_loaded l) "observed_urls" = jField (save s) "observed_urls" ∧
      jField (save_loaded l) "scheduled_messages" =
        jField (save s) "scheduled_messages" := by
  refine ⟨_, from_directory_save s, ?_, ?_, ?_, ?_, ?_, ?_⟩
  · intro k
    rw [jFieldKey_loaded_flatlist, jFieldKey_save_flatlist]
    exact dictUpdate_nil_lookup _ k
  · intro k
    rw [jFieldKey_loaded_details, jFieldKey_save_details]
    exact dictUpdate_nil_lookup _ k
  · intro k
    rw [jFieldKey_loaded_viewed, jFieldKey_save_viewed]
    show (aLookup ((dictUpdate []
        (s.viewed.map (fun p => (toString p.1, pySet (p.2.map scalarOfNat))))).map
        (fun p => (p.1, JValue.jlist (p.2.map JScalar.toJValue)))) k).isSome = _
    rw [aLookup_map_value (dictUpdate []
          (s.viewed.map (fun p => (toString p.1, pySet (p.2.map scalarOfNat)))))
        (fun ss => JValue.jlist (ss.map JScalar.toJValue)) k,
      dictUpdate_nil_lookup
        (s.viewed.map (fun p => (toString p.1, pySet (p.2.map scalarOfNat)))) k]
    rcases viewed_lookup_pair s.viewed k with ⟨h1, h2⟩ | ⟨v, h1, h2⟩
    · rw [h1, h2]; rfl
    · rw [h1, h2]; rfl
  · intro k x
    rw [jFieldKey_loaded_viewed, jFieldKey_save_viewed]
    show (∃ xs, aLookup ((dictUpdate []
        (s.viewed.map (fun p => (toString p.1, pySet (p.2.map scalarOfNat))))).map
        (fun p => (p.1, JValue.jlist (p.2.map JScalar.toJValue)))) k =
          some (.jlist xs) ∧ x ∈ xs) ↔ _
    rw [aLookup_map_value (dictUpdate []
          (s.viewed.map (fun p => (toString p.1, pySet (p.2.map scalarOfNat)))))
        (fun ss => JValue.jlist (ss.map JScalar.toJValue)) k,
      dictUpdate_nil_lookup
        (s.viewed.map (fun p => (toString p.1, pySet (p.2.map scalarOfNat)))) k]
    rcases viewed_lookup_pair s.viewed k with ⟨h1, h2⟩ | ⟨v, h1, h2⟩
    · rw [h1, h2]
      simp
    · rw [h1, h2]
      constructor
      · rintro ⟨xs, hxs, hx⟩
        simp only [Option.map_some', Option.some.injEq, JValue.jlist.injEq] at hxs
        subst hxs
        refine ⟨v.map jnumOfNat, rfl, ?_⟩
        rcases List.mem_map.mp hx with ⟨sc, hsc, rfl⟩
        rcases List.mem_map.mp ((pySet_mem _ sc).mp hsc) with ⟨n, hn, rfl⟩
        exact List.mem_map.mpr ⟨n, hn, rfl⟩
      · rintro ⟨xs, hxs, hx⟩
        simp only [Option.some.injEq, JValue.jlist.injEq] at hxs
        subst hxs
        refine ⟨(pySet (v.map scalarOfNat)).map JScalar.toJValue, rfl, ?_⟩
        rcases List.mem_map.mp hx with ⟨n, hn, rfl⟩
        refine List.mem_map.mpr ⟨scalarOfNat n, ?_, rfl⟩
        exact (pySet_mem _ _).mpr (List.mem_map.mpr ⟨n, hn, rfl⟩)
  · rw [jField_loaded_urls, jField_save_urls]
  · rw [jField_loaded_sched, jField_save_sched]

/-- Claim C1: across any sequence of engine operations from the initial
state (start commands, new flats, fetchMessages, flushes, observe and whole
reconciliation cycles), at most one message is ever appended to the delivery
queue for any `(recipient, listing id)` pair; moreover a message is appended
exactly when the id is fresh, accepted, and absent from that recipient's
notified set, and the append happens together with adding the id to the set
(`fetch_messages` never enqueues: it always raises first). -/
theorem no_duplicate_notification :
    (∀ (ops : List Op) (u fid : Nat),
        List.count (u, fid) (runOps initState ops).enqueue_log ≤ 1) ∧
    (∀ (s : CianState) (f : FlatListItem),
        (handle_new_flat s f).1.enqueue_log =
          s.enqueue_log ++
            (if f.id ∈ flatKeys s then []
             else match flat_ok f with
               | .ok true =>
                 (s.viewed.filter (fun p => decide (f.id ∉ p.2))).map
                   (fun p => (p.1, f.id))
               | _ => [])) ∧
    ∀ (s : CianState) (f : FlatListItem),
        (handle_new_flat s f).1.viewed =
          (if f.id ∈ flatKeys s then s.viewed
           else match flat_ok f with
             | .ok true =>
               s.viewed.map (fun p => (p.1, if f.id ∈ p.2 then p.2 else p.2 ++ [f.id]))
             | _ => s.viewed) := by
  refine ⟨?_, handle_log_eq, handle_viewed_eq⟩
  intro ops u fid
  have hinit : Inv initState :=
    ⟨List.nodup_nil, fun e he => absurd he (List.not_mem_nil e), List.nodup_nil⟩
  have hinv : Inv (runOps initState ops) := inv_runOps ops initState hinit
  exact count_le_one_of_nodup _ hinv.1 (u, fid)

theorem filter_gating_witness :
    filter_metro ∈ filters ∧ filter_metro exFlat6 = Except.ok false ∧
    (handle_new_flat exS6 exFlat6).1.scheduled_messages = exS6.scheduled_messages ∧
    (handle_new_flat exS6 exFlat6).1.viewed = exS6.viewed := by
  have hmem : filter_metro ∈ filters := by simp [filters]
  have hrej : filter_metro exFlat6 = Except.ok false := rfl
  have h := (filter_gating exFlat6).2 filter_metro hmem hrej exS6
  exact ⟨hmem, hrej, h.1, h.2.1⟩

end Cian
